import Mathlib

/-!
Verification development for the Bronze-to-Silver Iceberg compaction engine
(`src/iceberg_loader.py` and its helpers in `src/utils/`).

The Python source is shallowly embedded: rows are records, the DuckDB
dedup/filter queries become list functions, the Iceberg delete+append merge
becomes a function on lists of rows, and exception control flow becomes
explicit `Except` values.  Dates and timestamps are modelled as integers
(days, respectively a linearly ordered timestamp), SQL DOUBLE values as
`Rat`.  Definitions come first, then the helper lemmas and the theorems.
-/

namespace Makerates


/-- Run mode of the loader job (`--mode`, `choices=["daily", "backfill"]`). -/
inductive Mode
  | daily
  | backfill
deriving DecidableEq, Repr

/-- A scalar column value as it appears in a primary-key tuple
(`arrow_table.column(pk)[i].as_py()` yields strings or numbers). -/
inductive ColValue
  | str (s : String)
  | int (n : Int)
deriving DecidableEq, Repr

/-- A normalized record of the `bronze_raw` table after MAP reconstruction
(columns selected in `get_arrow_batch`; `filename` is dropped by the final
`SELECT * EXCLUDE (filename, rn)`).  `extraction_timestamp` and `rate_date`
are modelled as integers (linear order is all the queries use);
rate values (SQL DOUBLE) are modelled as `Rat`. -/
structure Row where
  extraction_id : String
  extraction_timestamp : Int
  source : String
  source_tier : String
  base_currency : String
  rate_date : Int
  rates : List (String × Rat)
  http_status_code : Int
deriving DecidableEq, Repr

/-- A column name usable in the configured `PRIMARY_KEYS` list. -/
inductive PKField
  | extraction_id
  | source
  | source_tier
  | base_currency
  | rate_date
deriving DecidableEq, Repr

/-- Value of a primary-key column of a row. -/
def Row.colValue (r : Row) : PKField → ColValue
  | .extraction_id => .str r.extraction_id
  | .source => .str r.source
  | .source_tier => .str r.source_tier
  | .base_currency => .str r.base_currency
  | .rate_date => .int r.rate_date

/-- The primary-key tuple of a row for the configured field list `pks`
(the values bound by `PARTITION BY {pk_cols_sql}` and by
`tuple(arrow_table.column(pk)[i].as_py() for pk in self.pk_list)`). -/
def keyOf (pks : List PKField) (r : Row) : List ColValue :=
  pks.map r.colValue

/-- The mode-dependent date filter of `get_arrow_batch` (its
`filter_clause`): daily mode keeps rows with
`CAST(rate_date AS DATE) >= start_date - INTERVAL '3 days'` (no upper
bound in the source); backfill mode keeps rows with
`start_date <= rate_date <= end_date`. -/
def dateFilter (mode : Mode) (startDate endDate : Int) (batch : List Row) : List Row :=
  match mode with
  | .daily => batch.filter fun r => startDate - 3 ≤ r.rate_date
  | .backfill => batch.filter fun r => startDate ≤ r.rate_date ∧ r.rate_date ≤ endDate

/-- The deduplication of `get_arrow_batch`:
`ROW_NUMBER() OVER (PARTITION BY pk ORDER BY extraction_timestamp DESC)`,
keeping `rn = 1` only.  Ties on `extraction_timestamp` are broken
deterministically by input order (first occurrence wins), the stable
choice the spec allows for the implementation-defined SQL tie-break. -/
def dedupe (pks : List PKField) : List Row → List Row
  | [] => []
  | r :: rest =>
    if rest.any fun s => keyOf pks s = keyOf pks r ∧ r.extraction_timestamp < s.extraction_timestamp then
      dedupe pks rest
    else
      r :: dedupe pks (rest.filter fun s => keyOf pks s ≠ keyOf pks r)
termination_by l => l.length
decreasing_by
  · simp [Nat.lt_succ_iff]
  · simp [Nat.lt_succ_iff]
    exact List.length_filter_le _ _

/-- The distinct set of primary-key tuples of the incoming batch
(`pk_values_set` in `load_to_iceberg`). -/
def pkValuesSet (pks : List PKField) (batch : List Row) : List (List ColValue) :=
  (batch.map (keyOf pks)).dedup

/-- Whether a destination row matches the delete predicate built in
`load_to_iceberg`: the OR over `pk_values_set` of per-row equality
conjunctions on the primary-key fields. -/
def matchesDelete (pks : List PKField) (batch : List Row) (r : Row) : Bool :=
  decide (keyOf pks r ∈ pkValuesSet pks batch)

/-- The delete+append merge of `load_to_iceberg` (lines 441-470): delete every
destination row whose primary-key tuple appears in the batch, then append
the batch.  The destination table is modelled as the list of its rows. -/
def deleteAppend (pks : List PKField) (table batch : List Row) : List Row :=
  (table.filter fun r => !(matchesDelete pks batch r)) ++ batch

/-- At most one row per primary-key tuple (the destination-table invariant). -/
def KeyUnique (pks : List PKField) (table : List Row) : Prop :=
  table.Pairwise fun r s => keyOf pks r ≠ keyOf pks s

/-- Python `str.replace` on character lists: replace all non-overlapping
occurrences of `pat` left to right.  The fuel argument (instantiated with the
input length) only makes the recursion structural; each step consumes at
least one input character, so the fuel never runs out. -/
def replaceFuel (pat repl : List Char) : Nat → List Char → List Char
  | 0, l => l
  | _ + 1, [] => []
  | fuel + 1, c :: rest =>
    if pat.isPrefixOf (c :: rest) then
      repl ++ replaceFuel pat repl fuel ((c :: rest).drop pat.length)
    else
      c :: replaceFuel pat repl fuel rest

/-- Python `s.replace(pat, repl)` for a non-empty pattern. -/
def pyReplace (s pat repl : String) : String :=
  if pat.data.isEmpty then s
  else ⟨replaceFuel pat.data repl.data s.data.length s.data⟩

/-- Python `s.upper()` (ASCII case mapping suffices for the column names). -/
def pyUpper (s : String) : String :=
  ⟨s.data.map Char.toUpper⟩

/-- Split a character list on a separator character (Python `str.split`). -/
def splitOnChar (sep : Char) : List Char → List (List Char)
  | [] => [[]]
  | c :: rest =>
    match splitOnChar sep rest with
    | [] => [[]]
    | cur :: more => if c = sep then [] :: cur :: more else (c :: cur) :: more

/-- Python `pat.rsplit('/', 1)[0]`: everything before the last slash, or the
whole string when it contains none. -/
def rsplitParent (s : String) : String :=
  let parts := splitOnChar '/' s.data
  if parts.length ≤ 1 then s else ⟨List.intercalate ['/'] parts.dropLast⟩

/-- The characters before the first occurrence of `pat` (the whole list when
`pat` does not occur): Python `s.split(pat)[0]`. -/
def upToFirst (pat : List Char) : List Char → List Char
  | [] => []
  | c :: rest => if pat.isPrefixOf (c :: rest) then [] else c :: upToFirst pat rest

/-- Python `pat_root.split('/**')[0]` of `generate_source_pattern`. -/
def rootParent (s : String) : String :=
  ⟨upToFirst ("/**".data) s.data⟩

/-- Currency code derived from a flattened column name in `get_arrow_batch`:
`col.replace('rates__', '').upper()`. -/
def currencyKeyOfCol (col : String) : String :=
  pyUpper (pyReplace col "rates__" "")

/-- The `valid_pairs` list of `get_arrow_batch`: a `(column, derived key)`
pair for every discovered `rates__*` column whose derived key is non-empty
(the defensive `if key and len(key) > 0` check). -/
def validPairs (ratesCols : List String) : List (String × String) :=
  (ratesCols.map fun c => (c, currencyKeyOfCol c)).filter fun p => p.2 ≠ ""

/-- The reconstructed rates mapping of one row: the `CASE WHEN col IS NOT NULL`
expression contributes an entry only when the flattened column value is
non-NULL, and `list_filter` additionally drops any entry whose key is empty.
A row is modelled as its column valuation `rowVal` (`none` = SQL NULL);
an entry is a (key, value) pair, so null keys and null values are
unrepresentable by construction. -/
def reconstructRates (ratesCols : List String) (rowVal : String → Option Rat) :
    List (String × Rat) :=
  ((validPairs ratesCols).filterMap fun p => (rowVal p.1).map fun v => (p.2, v)).filter
    fun e => e.1 ≠ ""

/-- The `EXISTS` condition of the post-construction validation query: the
row's mapping contains an empty key (a NULL key is unrepresentable in the
model, as the validation aims to guarantee). -/
def rowMapInvalid (m : List (String × Rat)) : Bool :=
  m.any fun e => e.1 = ""

/-- The post-construction validation of `get_arrow_batch`: when the count of
rows with an invalid mapping key is positive, those rows are filtered out of
the final query (with a logged warning); otherwise the batch is unchanged. -/
def validateRows (rows : List (List (String × Rat))) : List (List (String × Rat)) :=
  if rows.any rowMapInvalid then rows.filter fun m => !(rowMapInvalid m) else rows

/-- The `{year, month, day}` strftime parameters produced by
`_get_date_params` for a datetime. -/
structure DateParams where
  year : String
  month : String
  day : String
deriving DecidableEq, Repr

/-- Modelled from the spec: the glob-pattern templates live in
`storage.yaml` (`storage.bronze.patterns`), which is absent from the source
tree; each template is modelled as an abstract function of the resolved base
path and the date parameters (a by-day pattern, a by-month pattern, and a
recursive root pattern). -/
structure Patterns where
  daily : String → DateParams → String
  backfill_day : String → DateParams → String
  backfill_month : String → DateParams → String
  backfill_root : String → String

/-- The ordered candidate list built by `generate_source_pattern`: pairs of
(existence-probe path, glob pattern).  Daily mode pushes the by-day pattern
for the target date; backfill mode pushes the by-day pattern for today, the
by-month pattern for today, then the by-month pattern for the target date;
both modes append the recursive root fallback last. -/
def sourceCandidates (mode : Mode) (p : Patterns) (basePath : String)
    (target today : DateParams) : List (String × String) :=
  (match mode with
   | .daily =>
     [(rsplitParent (p.daily basePath target), p.daily basePath target)]
   | .backfill =>
     [(rsplitParent (p.backfill_day basePath today), p.backfill_day basePath today),
      (rsplitParent (p.backfill_month basePath today), p.backfill_month basePath today),
      (rsplitParent (p.backfill_month basePath target), p.backfill_month basePath target)])
  ++ [(rootParent (p.backfill_root basePath), p.backfill_root basePath)]

/-- The probe loop of `generate_source_pattern`: return the glob pattern of
the first candidate whose probed path reports at least one object.  `none`
models the `ValueError("No data found for mode ...")` raised when every
probe fails. -/
def firstFound (probe : String → Bool) : List (String × String) → Option String
  | [] => none
  | (chk, pat) :: rest => if probe chk then some pat else firstFound probe rest

/-- Embeds `IcebergLoader.generate_source_pattern`, with the S3 existence
probe abstracted as `probe`. -/
def generate_source_pattern (probe : String → Bool) (mode : Mode) (p : Patterns)
    (basePath : String) (target today : DateParams) : Option String :=
  firstFound probe (sourceCandidates mode p basePath target today)

/-- Result of an S3 `ListObjectsV2` call: a response (with or without a
`Contents` key), a `botocore ClientError`, or any other exception. -/
inductive S3ListResult
  | resp (hasContents : Bool)
  | clientError
  | otherError
deriving DecidableEq, Repr

/-- The key normalization inside `check_s3_prefix_exists`: strip a leading
`s3://`, a leading bucket name, and leading slashes from the probed path. -/
def normalizeKey (bucketName pfx : String) : String :=
  let p1 : String := if ("s3://".data).isPrefixOf pfx.data then ⟨pfx.data.drop 5⟩ else pfx
  let p2 : String :=
    if bucketName.data.isPrefixOf p1.data then ⟨p1.data.drop bucketName.data.length⟩ else p1
  ⟨p2.data.dropWhile fun c => c = '/'⟩

/-- Embeds `check_s3_prefix_exists` of `utils/s3_helper.py`: normalize the bucket
name (strip `s3://`) and the key, issue `list_objects_v2` with `MaxKeys=1`,
and report whether `Contents` is present.  The whole body runs under
handlers that catch `ClientError` and every other exception, log a warning
and return `False`. -/
def check_s3_prefix_exists (listObjects : String → String → S3ListResult)
    (bucket pfx : String) : Bool :=
  let bucketName := pyReplace bucket "s3://" ""
  match listObjects bucketName (normalizeKey bucketName pfx) with
  | .resp has => has
  | .clientError => false
  | .otherError => false

/-- Embeds `generate_source_pattern` with its probe wired to
`check_s3_prefix_exists` against the source bucket, as in the source. -/
def resolveWithS3 (listObjects : String → String → S3ListResult) (bucket : String)
    (mode : Mode) (p : Patterns) (basePath : String) (target today : DateParams) :
    Option String :=
  generate_source_pattern (fun chk => check_s3_prefix_exists listObjects bucket chk)
    mode p basePath target today

/-- The DuckDB `read_json_auto` scan over the files matched by the glob
pattern: it raises a "No files found" error when the pattern matches zero
files, and otherwise yields every record of every matched file. -/
def read_json_rows (files : List (List Row)) : Except String (List Row) :=
  if files.isEmpty then .error "No files found" else .ok files.flatten

/-- Embeds `IcebergLoader.get_arrow_batch` at batch granularity: `none` exactly when
the scan reports "No files found" (the handler re-raises anything else);
otherwise the date-filtered, deduplicated batch.  The MAP reconstruction
(modelled separately, see `reconstructRates`) rewrites columns within each
row and does not change row counts, so rows here are taken already
normalized. -/
def get_arrow_batch (pks : List PKField) (mode : Mode) (startDate endDate : Int)
    (files : List (List Row)) : Option (List Row) :=
  match read_json_rows files with
  | .error _ => none
  | .ok rows => some (dedupe pks (dateFilter mode startDate endDate rows))

/-- Outcome of `IcebergLoader.run`. -/
inductive RunOutcome
  | noOp
  | merged (table : List Row)
  | failed
deriving DecidableEq, Repr

/-- Embeds `IcebergLoader.run`: resolve the source pattern (a resolution failure
raises `ValueError`, which the handler turns into a non-zero exit), read the
batch, return cleanly when the batch is `None` or has zero rows
("No records found. Skipping upsert."), otherwise merge into the
destination table. -/
def run (pks : List PKField) (mode : Mode) (startDate endDate : Int)
    (resolved : Option String) (filesFor : String → List (List Row))
    (table : List Row) : RunOutcome :=
  match resolved with
  | none => .failed
  | some pat =>
    match get_arrow_batch pks mode startDate endDate (filesFor pat) with
    | none => .noOp
    | some rows =>
      if rows.length = 0 then .noOp
      else .merged (deleteAppend pks table rows)

/-- Python exception classes as they matter for control flow: subclasses of
`Exception` are caught by `except Exception`; `SystemExit` — raised by
`sys.exit` — derives from `BaseException` only, so those handlers let it
through. -/
inductive PyErr
  | exception
  | systemExit
deriving DecidableEq, Repr

/-- Behaviours of the underlying boto3 `Table.put_item` call: success, a
`botocore ClientError`, or some other exception. -/
inductive PutBehavior
  | ok
  | clientError
  | otherError
deriving DecidableEq, Repr

/-- Embeds `DynamoDBClient.__init__` (with `_load_environment_config`): any failure
while loading the configuration or constructing the boto3 resource is logged
and followed by `sys.exit(1)`, raising `SystemExit`. -/
def dynamoInit (configOk resourceOk : Bool) : Except PyErr Unit :=
  if configOk then
    if resourceOk then .ok () else .error .systemExit
  else .error .systemExit

/-- Embeds `DynamoDBClient.put_item`: a `ClientError` is caught inside the wrapper,
which logs and returns `False`; any other exception propagates. -/
def put_item (b : PutBehavior) : Except PyErr Bool :=
  match b with
  | .ok => .ok true
  | .clientError => .ok false
  | .otherError => .error .exception

/-- The metadata-publish tail of `load_to_iceberg`, reached after a
successful delete+append: `table.refresh()` and `metadata_location`, the
`DynamoDBClient` construction, and the put all run inside
`try/except Exception`, which logs and swallows `Exception` — but not
`SystemExit`. -/
def publishMetadata (refreshOk configOk resourceOk : Bool) (put : PutBehavior) :
    Except PyErr Unit :=
  let body : Except PyErr Unit := do
    if refreshOk then pure () else throw .exception
    dynamoInit configOk resourceOk
    let _ ← put_item put
    pure ()
  match body with
  | .ok _ => .ok ()
  | .error .exception => .ok ()
  | .error .systemExit => .error .systemExit

/-- Exit status of a run whose merge succeeded, as decided by the
metadata-publish step: `load_to_iceberg`'s outer `except Exception` and
`run`'s handler both call `sys.exit(1)` for exceptions, and an uncaught
`SystemExit` likewise terminates the process with code 1. -/
inductive JobResult
  | success
  | exitNonZero
deriving DecidableEq, Repr

/-- The run outcome after a successful merge as a function of the
metadata-publish behaviour. -/
def runAfterMerge (refreshOk configOk resourceOk : Bool) (put : PutBehavior) : JobResult :=
  match publishMetadata refreshOk configOk resourceOk put with
  | .ok _ => .success
  | .error _ => .exitNonZero

/-- An Iceberg schema field: a name and a type (types are opaque names
here; the evolution logic only compares names). -/
structure FieldDef where
  name : String
  ftype : String
deriving DecidableEq, Repr

/-- Modelled from the spec: pyiceberg's
`table.update_schema().union_by_name(schema)` lives outside the source tree;
per the spec it evolves the schema "additively (union by field name) — never
drop or retype existing fields", so existing fields are kept unchanged and
incoming fields with new names are appended. -/
def union_by_name (existing incoming : List FieldDef) : List FieldDef :=
  existing ++ incoming.filter fun f => existing.all fun g => g.name ≠ f.name

/-- The schema step of `load_to_iceberg`: when the table exists, compute the
incoming field names absent from the existing schema and evolve via
`union_by_name` only when some are new; when the table does not exist
(`load_table` raised), create it with the incoming batch's schema. -/
def evolveOrCreate (existing : Option (List FieldDef)) (incoming : List FieldDef) :
    List FieldDef :=
  match existing with
  | some sch =>
    let newFields := incoming.filter fun f => sch.all fun g => g.name ≠ f.name
    if newFields.isEmpty then sch else union_by_name sch incoming
  | none => incoming

/-- A destination table with its schema and rows; the schema step touches
only the schema component (delete+append acts on rows separately). -/
def evolveTable (t : List FieldDef × List Row) (incoming : List FieldDef) :
    List FieldDef × List Row :=
  (evolveOrCreate (some t.1) incoming, t.2)

/-- A configured primary-key list matching the reference configuration
(`PRIMARY_KEYS=rate_date,source,base_currency`). -/
def samplePKs : List PKField := [.rate_date, .source, .base_currency]

/-- Sample record with the later extraction timestamp (spec section 8 scenario). -/
def sampleRowA : Row :=
  { extraction_id := "e2", extraction_timestamp := 2, source := "frankfurter",
    source_tier := "primary", base_currency := "USD", rate_date := 0,
    rates := [("EUR", (91 : Rat) / 100)], http_status_code := 200 }

/-- Sample record with the earlier extraction timestamp, same primary key. -/
def sampleRowB : Row :=
  { extraction_id := "e1", extraction_timestamp := 1, source := "frankfurter",
    source_tier := "primary", base_currency := "USD", rate_date := 0,
    rates := [("EUR", (90 : Rat) / 100)], http_status_code := 200 }

/-- A record dated after the daily window end (rate_date = start_date + 5 for
start_date = 0). -/
def lateRow : Row :=
  { extraction_id := "e3", extraction_timestamp := 3, source := "frankfurter",
    source_tier := "primary", base_currency := "USD", rate_date := 5,
    rates := [], http_status_code := 200 }

/-- A record dated 10 days before the window (start_date = 0). -/
def staleRow : Row :=
  { extraction_id := "e0", extraction_timestamp := 0, source := "frankfurter",
    source_tier := "primary", base_currency := "USD", rate_date := -10,
    rates := [], http_status_code := 200 }

/-- A record dated exactly 3 days before start_date = 0. -/
def edgeRow : Row :=
  { extraction_id := "e4", extraction_timestamp := 0, source := "frankfurter",
    source_tier := "primary", base_currency := "USD", rate_date := -3,
    rates := [], http_status_code := 200 }

/-- A sample flattened row valuation: `rates__usd` is 1, everything else NULL. -/
def sampleRowVal : String → Option Rat :=
  fun c => if c = "rates__usd" then some 1 else none

/-- Glob templates shaped like the reference layout
(`{base}/{year}/{month}/{day}/*.jsonl` and friends). -/
def samplePatterns : Patterns :=
  { daily := fun b d => b ++ "/" ++ d.year ++ "/" ++ d.month ++ "/" ++ d.day ++ "/*.jsonl"
    backfill_day := fun b d => b ++ "/" ++ d.year ++ "/" ++ d.month ++ "/" ++ d.day ++ "/*.jsonl"
    backfill_month := fun b d => b ++ "/" ++ d.year ++ "/" ++ d.month ++ "/*/*.jsonl"
    backfill_root := fun b => b ++ "/**/*.jsonl" }

/-- Today's date parameters in the C5 scenario. -/
def sampleToday : DateParams := ⟨"2024", "03", "15"⟩

/-- A target date two months in the past in the C5 scenario. -/
def sampleTarget : DateParams := ⟨"2024", "01", "10"⟩

/-- A probe that finds data only under today's by-day path. -/
def sampleProbe : String → Bool := fun s => s = "rates/2024/03/15"

theorem dedupe_subset (pks : List PKField) (l : List Row) :
    ∀ x ∈ dedupe pks l, x ∈ l := by
  induction l using dedupe.induct pks with
  | case1 => simp [dedupe]
  | case2 r rest hcond ih =>
      intro x hx
      rw [dedupe, if_pos hcond] at hx
      exact List.mem_cons_of_mem _ (ih x hx)
  | case3 r rest hcond ih =>
      intro x hx
      rw [dedupe, if_neg hcond] at hx
      rcases List.mem_cons.mp hx with rfl | hx
      · exact List.mem_cons_self _ _
      · exact List.mem_cons_of_mem _ (List.mem_of_mem_filter (ih x hx))

theorem dedupe_ts_max (pks : List PKField) (l : List Row) :
    ∀ x ∈ dedupe pks l, ∀ s ∈ l, keyOf pks s = keyOf pks x →
      s.extraction_timestamp ≤ x.extraction_timestamp := by
  induction l using dedupe.induct pks with
  | case1 => simp [dedupe]
  | case2 r rest hcond ih =>
      intro x hx s hs hk
      rw [dedupe, if_pos hcond] at hx
      rcases List.mem_cons.mp hs with rfl | hs
      · simp only [List.any_eq_true, decide_eq_true_eq] at hcond
        obtain ⟨w, hw, hwk, hwt⟩ := hcond
        exact le_trans (le_of_lt hwt) (ih x hx w hw (hwk.trans hk))
      · exact ih x hx s hs hk
  | case3 r rest hcond ih =>
      intro x hx s hs hk
      rw [dedupe, if_neg hcond] at hx
      simp only [List.any_eq_true, decide_eq_true_eq, not_exists, not_and, not_lt] at hcond
      rcases List.mem_cons.mp hx with rfl | hx
      · rcases List.mem_cons.mp hs with rfl | hs
        · exact le_refl _
        · exact hcond s hs hk
      · have hxf := dedupe_subset _ _ x hx
        have hxk : keyOf pks x ≠ keyOf pks r := by
          have := (List.mem_filter.mp hxf).2
          simpa using this
        rcases List.mem_cons.mp hs with rfl | hs
        · exact absurd hk (fun h => hxk (h.symm ▸ rfl))
        · have hsf : s ∈ rest.filter (fun s => keyOf pks s ≠ keyOf pks r) := by
            refine List.mem_filter.mpr ⟨hs, ?_⟩
            simpa using fun h => hxk (hk ▸ h)
          exact ih x hx s hsf hk

theorem dedupe_exists_key (pks : List PKField) (l : List Row) :
    ∀ r ∈ l, ∃ c ∈ dedupe pks l, keyOf pks c = keyOf pks r := by
  induction l using dedupe.induct pks with
  | case1 => simp
  | case2 r rest hcond ih =>
      intro a ha
      rw [dedupe, if_pos hcond]
      rcases List.mem_cons.mp ha with rfl | ha
      · simp only [List.any_eq_true, decide_eq_true_eq] at hcond
        obtain ⟨w, hw, hwk, _⟩ := hcond
        obtain ⟨c, hc, hck⟩ := ih w hw
        exact ⟨c, hc, hck.trans hwk⟩
      · exact ih a ha
  | case3 r rest hcond ih =>
      intro a ha
      rw [dedupe, if_neg hcond]
      rcases List.mem_cons.mp ha with rfl | ha
      · exact ⟨a, List.mem_cons_self _ _, rfl⟩
      · by_cases hk : keyOf pks a = keyOf pks r
        · exact ⟨r, List.mem_cons_self _ _, hk.symm⟩
        · obtain ⟨c, hc, hck⟩ := ih a (List.mem_filter.mpr ⟨ha, by simpa using hk⟩)
          exact ⟨c, List.mem_cons_of_mem _ hc, hck⟩

theorem dedupe_keyUnique (pks : List PKField) (l : List Row) :
    KeyUnique pks (dedupe pks l) := by
  unfold KeyUnique
  induction l using dedupe.induct pks with
  | case1 => simp [dedupe]
  | case2 r rest hcond ih => rw [dedupe, if_pos hcond]; exact ih
  | case3 r rest hcond ih =>
      rw [dedupe, if_neg hcond]
      refine List.Pairwise.cons ?_ ih
      intro c hc
      have hcf := dedupe_subset _ _ c hc
      have hck : keyOf pks c ≠ keyOf pks r := by
        have := (List.mem_filter.mp hcf).2
        simpa using this
      exact fun h => hck h.symm

theorem matchesDelete_of_mem (pks : List PKField) {batch : List Row} {d : Row}
    (hd : d ∈ batch) : matchesDelete pks batch d = true := by
  simp only [matchesDelete, pkValuesSet, decide_eq_true_eq, List.mem_dedup]
  exact List.mem_map_of_mem _ hd

theorem deleteAppend_idem (pks : List PKField) (table batch : List Row) :
    deleteAppend pks (deleteAppend pks table batch) batch = deleteAppend pks table batch := by
  unfold deleteAppend
  rw [List.filter_append]
  have h1 : (table.filter fun r => !(matchesDelete pks batch r)).filter
      (fun r => !(matchesDelete pks batch r)) = table.filter fun r => !(matchesDelete pks batch r) :=
    List.filter_eq_self.mpr fun a ha => (List.mem_filter.mp ha).2
  have h2 : batch.filter (fun r => !(matchesDelete pks batch r)) = [] := by
    refine List.filter_eq_nil_iff.mpr fun d hd => ?_
    simp [matchesDelete_of_mem pks hd]
  rw [h1, h2, List.append_nil]

theorem deleteAppend_keyUnique (pks : List PKField) {table batch : List Row}
    (ht : KeyUnique pks table) (hb : KeyUnique pks batch) :
    KeyUnique pks (deleteAppend pks table batch) := by
  unfold KeyUnique deleteAppend
  rw [List.pairwise_append]
  refine ⟨List.Pairwise.sublist (List.filter_sublist _) ht, hb, ?_⟩
  intro a ha b hb2
  have hnm := (List.mem_filter.mp ha).2
  intro hab
  have : matchesDelete pks batch a = true := by
    simp only [matchesDelete, pkValuesSet, decide_eq_true_eq, List.mem_dedup, hab]
    exact List.mem_map_of_mem _ hb2
  rw [this] at hnm
  exact Bool.noConfusion hnm

theorem firstFound_eq_none (probe : String → Bool)
    (h : ∀ x, probe x = false) : ∀ l, firstFound probe l = none := by
  intro l
  induction l with
  | nil => rfl
  | cons hd tl ih =>
    obtain ⟨chk, pat⟩ := hd
    simp [firstFound, h chk, ih]

/-- C7: before writing, the engine evolves the destination schema additively
by union-by-name when the incoming batch carries new fields — every existing
field survives with its name and type unchanged and every incoming field
name is present afterwards — it leaves pre-existing rows untouched, and when
the destination table does not exist it is created with the incoming batch's
schema instead of evolving. -/
theorem evolveOrCreate_some_eq (sch incoming : List FieldDef) :
    evolveOrCreate (some sch) incoming =
      if (incoming.filter fun f => sch.all fun g => g.name ≠ f.name).isEmpty then sch
      else union_by_name sch incoming := rfl

/-- C1: for every batch and destination table, running the delete+append merge
twice with the same deduplicated batch (`merge(dedupe(B)); merge(dedupe(B))`)
leaves the destination table in exactly the same state as running it once:
row count does not grow and no duplicate rows appear on repeat. -/
theorem C1_merge_idempotent (pks : List PKField) (mode : Mode) (startDate endDate : Int)
    (table batch : List Row) :
    deleteAppend pks
        (deleteAppend pks table (dedupe pks (dateFilter mode startDate endDate batch)))
        (dedupe pks (dateFilter mode startDate endDate batch))
      = deleteAppend pks table (dedupe pks (dateFilter mode startDate endDate batch)) :=
  deleteAppend_idem pks table _

/-- C2: the deduplicated batch carries at most one row per primary-key tuple,
and if the destination table satisfied the key-uniqueness invariant before the
merge, it still satisfies it after the delete+append merge. -/
theorem C2_key_uniqueness (pks : List PKField) (mode : Mode) (startDate endDate : Int)
    (table batch : List Row) (h : KeyUnique pks table) :
    KeyUnique pks
        (deleteAppend pks table (dedupe pks (dateFilter mode startDate endDate batch))) ∧
      KeyUnique pks (dedupe pks (dateFilter mode startDate endDate batch)) :=
  ⟨deleteAppend_keyUnique pks h (dedupe_keyUnique pks _), dedupe_keyUnique pks _⟩

theorem C2_key_uniqueness_witness :
    KeyUnique samplePKs
        (deleteAppend samplePKs [sampleRowB]
          (dedupe samplePKs (dateFilter .daily 0 0 [sampleRowA, sampleRowB]))) ∧
      KeyUnique samplePKs (dedupe samplePKs (dateFilter .daily 0 0 [sampleRowA, sampleRowB])) :=
  C2_key_uniqueness samplePKs .daily 0 0 [sampleRowB] [sampleRowA, sampleRowB]
    (by simp [KeyUnique])

/-- C3: every entry of a reconstructed rates mapping has a non-empty key and
originates from a non-null flattened rate field (null-valued fields contribute
no entry), a reconstructed mapping never triggers the validation condition,
and every row surviving the post-construction validation pass has no empty
key in its mapping. -/
theorem C3_rates_map_invariant (ratesCols : List String) (rowVal : String → Option Rat)
    (rows : List (List (String × Rat))) :
    (∀ e ∈ reconstructRates ratesCols rowVal,
        e.1 ≠ "" ∧ ∃ c, (c, e.1) ∈ validPairs ratesCols ∧ rowVal c = some e.2) ∧
      rowMapInvalid (reconstructRates ratesCols rowVal) = false ∧
      ∀ m ∈ validateRows rows, ∀ e ∈ m, e.1 ≠ "" := by
  have h1 : ∀ e ∈ reconstructRates ratesCols rowVal,
      e.1 ≠ "" ∧ ∃ c, (c, e.1) ∈ validPairs ratesCols ∧ rowVal c = some e.2 := by
    intro e he
    obtain ⟨hmem, hne⟩ := List.mem_filter.mp he
    obtain ⟨p, hp, hfe⟩ := List.mem_filterMap.mp hmem
    obtain ⟨v, hv, hev⟩ := Option.map_eq_some'.mp hfe
    refine ⟨by simpa using hne, p.1, ?_, ?_⟩
    · have h2 : p.2 = e.1 := congrArg Prod.fst hev
      rw [← h2, Prod.mk.eta]
      exact hp
    · have : v = e.2 := congrArg Prod.snd hev
      rw [hv, this]
  refine ⟨h1, ?_, ?_⟩
  · simp only [rowMapInvalid, List.any_eq_false, decide_eq_true_eq]
    intro e he
    exact (h1 e he).1
  · intro m hm e he
    unfold validateRows at hm
    have hvalid : rowMapInvalid m = false := by
      by_cases hany : rows.any rowMapInvalid = true
      · rw [if_pos hany] at hm
        simpa using (List.mem_filter.mp hm).2
      · rw [if_neg hany] at hm
        rw [List.any_eq_true] at hany
        push_neg at hany
        simpa using hany m hm
    simp only [rowMapInvalid, List.any_eq_false, decide_eq_true_eq] at hvalid
    exact hvalid e he

theorem C3_rates_map_invariant_witness :
    ("USD", (1 : Rat)).1 ≠ "" ∧
      ∃ c, (c, ("USD", (1 : Rat)).1) ∈ validPairs ["rates__usd", "rates__"] ∧
        sampleRowVal c = some ("USD", (1 : Rat)).2 :=
  (C3_rates_map_invariant ["rates__usd", "rates__"] sampleRowVal []).1
    ("USD", (1 : Rat)) (by decide)

/-- C4: given two records in the batch with the same primary-key tuple and
differing `extraction_timestamp`, deduplication drops the one with the smaller
timestamp, and it keeps a record of that key whose timestamp is maximal in the
whole group (rank 1 of `ORDER BY extraction_timestamp DESC`). -/
theorem C4_dedupe_recency (pks : List PKField) (batch : List Row) (a b : Row)
    (ha : a ∈ batch) (hb : b ∈ batch) (hk : keyOf pks a = keyOf pks b)
    (ht : b.extraction_timestamp < a.extraction_timestamp) :
    b ∉ dedupe pks batch ∧
      ∃ c ∈ dedupe pks batch, keyOf pks c = keyOf pks a ∧
        ∀ s ∈ batch, keyOf pks s = keyOf pks a →
          s.extraction_timestamp ≤ c.extraction_timestamp := by
  constructor
  · intro hbd
    exact absurd (dedupe_ts_max pks batch b hbd a ha hk) (not_le.mpr ht)
  · obtain ⟨c, hc, hck⟩ := dedupe_exists_key pks batch a ha
    refine ⟨c, hc, hck, fun s hs hsk => ?_⟩
    exact dedupe_ts_max pks batch c hc s hs (hsk.trans hck.symm)

theorem C4_dedupe_recency_witness :
    sampleRowB ∉ dedupe samplePKs [sampleRowA, sampleRowB] ∧
      ∃ c ∈ dedupe samplePKs [sampleRowA, sampleRowB],
        keyOf samplePKs c = keyOf samplePKs sampleRowA ∧
        ∀ s ∈ [sampleRowA, sampleRowB], keyOf samplePKs s = keyOf samplePKs sampleRowA →
          s.extraction_timestamp ≤ c.extraction_timestamp :=
  C4_dedupe_recency samplePKs [sampleRowA, sampleRowB] sampleRowA sampleRowB
    (by simp) (by simp) (by rfl) (by decide)

/-- C5: the resolver probes candidates in exactly the claimed order — daily:
by-day(target) then root fallback; backfill: by-day(today), by-month(today),
by-month(target), then root fallback — returning the glob pattern of the
first candidate whose probed path contains data; in particular, for backfill
with data present under today's by-day path, it returns the by-day-today
pattern regardless of the other probes. -/
theorem C5_resolver_order (probe : String → Bool) (p : Patterns) (basePath : String)
    (target today : DateParams) :
    (generate_source_pattern probe .daily p basePath target today =
      firstFound probe
        [(rsplitParent (p.daily basePath target), p.daily basePath target),
         (rootParent (p.backfill_root basePath), p.backfill_root basePath)]) ∧
      (generate_source_pattern probe .backfill p basePath target today =
        firstFound probe
          [(rsplitParent (p.backfill_day basePath today), p.backfill_day basePath today),
           (rsplitParent (p.backfill_month basePath today), p.backfill_month basePath today),
           (rsplitParent (p.backfill_month basePath target), p.backfill_month basePath target),
           (rootParent (p.backfill_root basePath), p.backfill_root basePath)]) ∧
      (probe (rsplitParent (p.backfill_day basePath today)) = true →
        generate_source_pattern probe .backfill p basePath target today =
          some (p.backfill_day basePath today)) := by
  refine ⟨rfl, rfl, fun h => ?_⟩
  simp [generate_source_pattern, sourceCandidates, firstFound, h]

theorem C5_resolver_order_witness :
    generate_source_pattern sampleProbe .backfill samplePatterns "rates"
      sampleTarget sampleToday = some "rates/2024/03/15/*.jsonl" :=
  (C5_resolver_order sampleProbe samplePatterns "rates" sampleTarget sampleToday).2.2
    (by decide)

/-- C6 counterexample: the daily filter clause has no upper bound, so with
`start_date = 0` a row dated 5 — after the claimed window end at
`start_date` — is accepted, contradicting the claim that only rows up to
`start_date` pass. -/
theorem C6_counterexample :
    dateFilter .daily 0 0 [lateRow] = [lateRow] ∧ 0 < lateRow.rate_date := by
  constructor
  · rfl
  · decide

/-- C6 (amended): the daily filter accepts exactly the rows with
`start_date - 3 ≤ rate_date` — a lower bound only, so rows dated after
`start_date` are also accepted — and the backfill filter accepts exactly the
rows with `rate_date` in `[start_date, end_date]` inclusive; in particular
with `start_date = D` a row dated `D - 3` is retained and a row dated
`D - 10` is excluded. -/
theorem C6_dateFilter_range (startDate endDate : Int) (batch : List Row) (r : Row) :
    (r ∈ dateFilter .daily startDate endDate batch ↔
        r ∈ batch ∧ startDate - 3 ≤ r.rate_date) ∧
      (r ∈ dateFilter .backfill startDate endDate batch ↔
        r ∈ batch ∧ startDate ≤ r.rate_date ∧ r.rate_date ≤ endDate) ∧
      (r.rate_date = startDate - 3 →
        (r ∈ dateFilter .daily startDate endDate batch ↔ r ∈ batch)) ∧
      (r.rate_date = startDate - 10 → r ∉ dateFilter .daily startDate endDate batch) := by
  refine ⟨?_, ?_, ?_, ?_⟩
  · simp [dateFilter, List.mem_filter]
  · simp [dateFilter, List.mem_filter]
  · intro hr
    simp [dateFilter, List.mem_filter, hr]
  · intro hr
    simp only [dateFilter, List.mem_filter, decide_eq_true_eq, hr]
    intro h
    omega

theorem C6_dateFilter_range_witness :
    (edgeRow ∈ dateFilter .daily 0 0 [edgeRow] ↔ edgeRow ∈ [edgeRow]) ∧
      staleRow ∉ dateFilter .daily 0 0 [staleRow] :=
  ⟨(C6_dateFilter_range 0 0 [edgeRow] edgeRow).2.2.1 (by decide),
   (C6_dateFilter_range 0 0 [staleRow] staleRow).2.2.2 (by decide)⟩

/-- C7: before writing, the engine evolves the destination schema additively
by union-by-name when the incoming batch carries new fields — every existing
field survives with its name and type unchanged and every incoming field
name is present afterwards — it leaves pre-existing rows untouched, and when
the destination table does not exist it is created with the incoming batch's
schema instead of evolving. -/
theorem C7_schema_evolution (sch incoming : List FieldDef) (rows : List Row) :
    (∀ f ∈ sch, f ∈ evolveOrCreate (some sch) incoming) ∧
      (∀ g ∈ incoming, ∃ f ∈ evolveOrCreate (some sch) incoming, f.name = g.name) ∧
      evolveOrCreate none incoming = incoming ∧
      (evolveTable (sch, rows) incoming).2 = rows := by
  refine ⟨?_, ?_, rfl, rfl⟩
  · intro f hf
    rw [evolveOrCreate_some_eq]
    by_cases hnew : (incoming.filter fun f => sch.all fun g => g.name ≠ f.name).isEmpty = true
    · rw [if_pos hnew]
      exact hf
    · rw [if_neg hnew]
      exact List.mem_append_left _ hf
  · intro g hg
    rw [evolveOrCreate_some_eq]
    by_cases hin : ∃ f ∈ sch, f.name = g.name
    · obtain ⟨f, hf, hfn⟩ := hin
      by_cases hnew : (incoming.filter fun f => sch.all fun g => g.name ≠ f.name).isEmpty = true
      · rw [if_pos hnew]
        exact ⟨f, hf, hfn⟩
      · rw [if_neg hnew]
        exact ⟨f, List.mem_append_left _ hf, hfn⟩
    · push_neg at hin
      have hgf : g ∈ incoming.filter fun f => sch.all fun g2 => g2.name ≠ f.name := by
        refine List.mem_filter.mpr ⟨hg, ?_⟩
        simp only [List.all_eq_true, decide_eq_true_eq]
        exact fun f hf => hin f hf
      have hne : ¬(incoming.filter fun f => sch.all fun g2 => g2.name ≠ f.name).isEmpty = true := by
        intro hemp
        rw [List.isEmpty_iff] at hemp
        rw [hemp] at hgf
        exact List.not_mem_nil _ hgf
      rw [if_neg hne]
      exact ⟨g, List.mem_append_right _ hgf, rfl⟩

theorem C7_schema_evolution_witness :
    (⟨"rate_date", "date"⟩ : FieldDef) ∈
        evolveOrCreate (some [⟨"rate_date", "date"⟩]) [⟨"http_status_code", "long"⟩] ∧
      ∃ f ∈ evolveOrCreate (some [⟨"rate_date", "date"⟩]) [⟨"http_status_code", "long"⟩],
        f.name = "http_status_code" :=
  ⟨(C7_schema_evolution [⟨"rate_date", "date"⟩] [⟨"http_status_code", "long"⟩] []).1
      ⟨"rate_date", "date"⟩ (by simp),
   (C7_schema_evolution [⟨"rate_date", "date"⟩] [⟨"http_status_code", "long"⟩] []).2.1
      ⟨"http_status_code", "long"⟩ (by simp)⟩

/-- C8: when the glob pattern matches zero files the batch reader returns
`none` rather than an error, and the run completes as a clean no-op without
attempting a merge; the same clean no-op happens when the read batch has
zero rows after filtering and deduplication. -/
theorem C8_no_data_noop (pks : List PKField) (mode : Mode) (startDate endDate : Int)
    (pat : String) (filesFor : String → List (List Row)) (table : List Row) :
    get_arrow_batch pks mode startDate endDate [] = none ∧
      (filesFor pat = [] →
        run pks mode startDate endDate (some pat) filesFor table = .noOp) ∧
      (dedupe pks (dateFilter mode startDate endDate (filesFor pat).flatten) = [] →
        run pks mode startDate endDate (some pat) filesFor table = .noOp) := by
  refine ⟨rfl, fun hf => ?_, fun hd => ?_⟩
  · simp [run, get_arrow_batch, read_json_rows, hf]
  · by_cases hf : (filesFor pat).isEmpty
    · simp [run, get_arrow_batch, read_json_rows, hf]
    · simp [run, get_arrow_batch, read_json_rows, hf, hd]

theorem C8_no_data_noop_witness :
    run samplePKs .daily 0 0 (some "rates/2024/03/15/*.jsonl") (fun _ => []) [] =
      RunOutcome.noOp :=
  (C8_no_data_noop samplePKs .daily 0 0 "rates/2024/03/15/*.jsonl" (fun _ => []) []).2.1 rfl

/-- C9 counterexample: a failure while constructing the metadata-store
client (`DynamoDBClient.__init__` with failing configuration load) calls
`sys.exit(1)`; the resulting `SystemExit` is not an `Exception`, escapes
every `except Exception` handler, and the run terminates with a non-zero
status instead of reporting success as the claim states. -/
theorem C9_counterexample :
    runAfterMerge true false true .ok = .exitNonZero ∧
      runAfterMerge true false true .ok ≠ .success := by
  decide

/-- C9 (amended): after a successful merge, failures of the snapshot refresh
and of the key-value put itself (whether a `ClientError` swallowed inside the
wrapper or any other `Exception`) are logged and swallowed and the run
reports success with the destination table unaffected; but a failure to
construct or configure the metadata-store client calls `sys.exit(1)`, whose
`SystemExit` bypasses the `except Exception` handlers, terminating the run
with a non-zero status. -/
theorem C9_publish_best_effort (refreshOk configOk resourceOk : Bool) (put : PutBehavior) :
    (configOk = true → resourceOk = true →
        runAfterMerge refreshOk configOk resourceOk put = .success) ∧
      (refreshOk = false → runAfterMerge refreshOk configOk resourceOk put = .success) ∧
      (refreshOk = true → (configOk = false ∨ resourceOk = false) →
        runAfterMerge refreshOk configOk resourceOk put = .exitNonZero) := by
  cases refreshOk <;> cases configOk <;> cases resourceOk <;> cases put <;> decide

theorem C9_publish_best_effort_witness :
    runAfterMerge true true true .clientError = .success ∧
      runAfterMerge true true true .otherError = .success :=
  ⟨(C9_publish_best_effort true true true .clientError).1 rfl rfl,
   (C9_publish_best_effort true true true .otherError).1 rfl rfl⟩

/-- C10: a storage or client error inside the existence probe is absorbed —
the probe returns `false` as if the candidate held no data and never
propagates an exception — so the resolver skips the candidate; when every
probe errors, the resolver reports the no-data resolution failure
(`ValueError`, modelled `none`) rather than surfacing the underlying I/O
error. -/
theorem C10_probe_absorbs_errors (listObjects : String → String → S3ListResult)
    (bucket : String) (mode : Mode) (p : Patterns) (basePath : String)
    (target today : DateParams)
    (herr : ∀ b k, listObjects b k = .clientError ∨ listObjects b k = .otherError) :
    (∀ pfx, check_s3_prefix_exists listObjects bucket pfx = false) ∧
      resolveWithS3 listObjects bucket mode p basePath target today = none := by
  have hfalse : ∀ b pfx, check_s3_prefix_exists listObjects b pfx = false := by
    intro b pfx
    rcases herr (pyReplace b "s3://" "") (normalizeKey (pyReplace b "s3://" "") pfx)
      with h | h <;> simp [check_s3_prefix_exists, h]
  exact ⟨hfalse bucket,
    firstFound_eq_none _ (fun x => hfalse bucket x) _⟩

theorem C10_probe_absorbs_errors_witness :
    (∀ pfx, check_s3_prefix_exists (fun _ _ => S3ListResult.clientError) "s3://bronze" pfx
        = false) ∧
      resolveWithS3 (fun _ _ => S3ListResult.clientError) "s3://bronze" .backfill
        samplePatterns "rates" sampleTarget sampleToday = none :=
  C10_probe_absorbs_errors (fun _ _ => S3ListResult.clientError) "s3://bronze" .backfill
    samplePatterns "rates" sampleTarget sampleToday (fun _ _ => Or.inl rfl)

end Makerates
